import Mathlib

/-!
# Verification of the clio-nodejs-logger emission core

Shallow embedding of `src/logger.js` (the `Logger` class) and of its
collaborators (`levels`, `log-level-filter`, `is-enabled`, `serializer`,
the safe JSON stringifier), which are required from sibling modules that
are not part of the provided sources and are therefore modelled from the
specification where so marked.
-/

namespace Clio

/-- Modelled from the spec: the severity set of `levels.js` (not in the
provided sources).  `logger.js` references exactly the four severities
`debug`, `log`, `warn`, `error`; the spec fixes the ordering
debug < log < warn < error (its total order restricted to these four). -/
inductive Level where
  | debug
  | log
  | warn
  | error
deriving DecidableEq, Repr

/-- Modelled from the spec: each severity has a fixed priority rank,
higher rank = more severe. -/
def rank : Level → Nat
  | .debug => 0
  | .log => 1
  | .warn => 2
  | .error => 3

/-- Modelled from the spec: `log-level-filter.js` (not in the provided
sources): allow iff `rank(severity) >= rank(threshold)`.  The first
argument is the configured threshold (`logLevel`), the second the
event's severity (`outputType`). -/
def logLevelFilter (logLevel outputType : Level) : Bool :=
  rank logLevel ≤ rank outputType

/-! ## Namespace matcher (`is-enabled.js`, modelled from the spec) -/

/-- Modelled from the spec: split a character list at every comma
(the pattern expression is "a comma-separated list of terms"). -/
def splitComma : List Char → List (List Char)
  | [] => [[]]
  | c :: cs =>
    let rest := splitComma cs
    if c = ',' then [] :: rest
    else
      match rest with
      | [] => [[c]]
      | t :: ts => (c :: t) :: ts

/-- Modelled from the spec: a term matches a namespace; a term ending in
`*` requires the namespace to start with the prefix before the `*`, a
wildcard-free term requires exact equality. -/
def termMatches (t ns : List Char) : Bool :=
  if t.getLast? = some '*' then List.isPrefixOf t.dropLast ns else t = ns

/-- Modelled from the spec: the terms of a pattern expression; empty
terms between commas are malformed and are skipped. -/
def patternTerms (p : List Char) : List (List Char) :=
  (splitComma p).filter (fun t => ¬t.isEmpty)

/-- Modelled from the spec: the inclusion terms, those not prefixed
with `-`. -/
def inclusionTerms (p : List Char) : List (List Char) :=
  (patternTerms p).filter (fun t => t.head? ≠ some '-')

/-- Modelled from the spec: the exclusion terms, those prefixed with
`-`, with the `-` stripped. -/
def exclusionTerms (p : List Char) : List (List Char) :=
  ((patternTerms p).filter (fun t => t.head? = some '-')).map (fun t => t.drop 1)

/-- Modelled from the spec: a namespace is enabled iff (no inclusion
terms exist, or it matches at least one inclusion term) and it matches
no exclusion term. -/
def isEnabledChars (ns p : List Char) : Bool :=
  ((inclusionTerms p).isEmpty || (inclusionTerms p).any (fun t => termMatches t ns))
    && !((exclusionTerms p).any (fun t => termMatches t ns))

/-- Modelled from the spec: `isEnabled(namespace, logPatterns)` of
`is-enabled.js` (not in the provided sources); an absent pattern
expression (`undefined`) enables every namespace. -/
def isEnabled (ns : String) (logPatterns : Option String) : Bool :=
  match logPatterns with
  | none => true
  | some p => isEnabledChars ns.data p.data

example : isEnabled "api" (some "api,-api:child") = true := by decide
example : isEnabled "api:child" (some "api,-api:child") = false := by decide
example : isEnabled "other" (some "api,-api:child") = false := by decide
example : isEnabled "anything" none = true := by decide
example : isEnabled "anything" (some "") = true := by decide
example : isEnabled "api:auth" (some "api:*") = true := by decide

/-! ## Serializer (`serializer.js`, modelled from the spec)

Payload data (the message and the extra fields) is modelled as the byte
list of its encoded serialized form, since the spec's size bound is on
the encoded byte length. -/

/-- A context object: an association list of string keys and values,
later bindings winning on lookup (JavaScript `Object.assign` merge). -/
abbrev Ctx := List (String × String)

/-- Lookup in a context object: the last binding of a key wins. -/
def ctxGet (ctx : Ctx) (k : String) : Option String :=
  (ctx.reverse.find? (fun kv => kv.1 = k)).map (fun kv => kv.2)

/-- The `contextData` record built in the `Logger` constructor:
`{ context, name: process.env.APP_NAME }`. -/
structure ContextData where
  context : Option Ctx
  name : Option String
deriving DecidableEq

/-- Byte encoding of a string (one byte per character code, the model's
encoding). -/
def encodeStr (s : String) : List Nat := s.data.map Char.toNat

/-- Modelled from the spec: the encoded serialized form of the context
part of an event's payload. -/
def encodeCtx (cd : ContextData) : List Nat :=
  encodeStr (cd.name.getD "") ++
    (cd.context.getD []).foldr (fun kv acc => encodeStr kv.1 ++ encodeStr kv.2 ++ acc) []

/-- Modelled from the spec: the sentinel appended when a payload is
shortened to respect the size bound. -/
def truncationMarker : List Nat := encodeStr "[TRUNCATED]"

/-- The event record produced per emission: `timestamp`, `message`,
the serialized `extraFields`/context payload, and the severity. -/
structure Event where
  timestamp : Nat
  message : List Nat
  payload : List Nat
  severity : Level
deriving DecidableEq

/-- The `Serializer` constructed in the `Logger` constructor with
`new Serializer({ context, name: process.env.APP_NAME }, namespace, logLimit)`. -/
structure Serializer where
  contextData : ContextData
  ns : String
  logLimit : Nat
deriving DecidableEq

/-- Modelled from the spec: `Serializer.serialize(message, extraFields,
severity)` merges context, message, extra fields, a generated timestamp
and the severity into one record; when the severity is `debug` and the
serialized `extraFields`/context payload exceeds `sizeLimit` bytes, the
payload is truncated to `sizeLimit` bytes with the truncation marker
appended; `message` and `timestamp` are never truncated.  The generated
timestamp is passed in as `now`. -/
def Serializer.serialize (s : Serializer) (now : Nat)
    (message extraFields : List Nat) (severity : Level) : Event :=
  let payload := encodeCtx s.contextData ++ extraFields
  if severity = Level.debug ∧ s.logLimit < payload.length then
    { timestamp := now, message := message,
      payload := payload.take s.logLimit ++ truncationMarker, severity := severity }
  else
    { timestamp := now, message := message, payload := payload, severity := severity }

/-! ## Environment defaults and the `Logger` class (`src/logger.js`) -/

/-- The process environment variables read by `logger.js`; `none` models
an unset (or empty, hence falsy) variable. -/
structure Env where
  LOG_LEVEL : Option Level := none
  LOG_LIMIT : Option Nat := none
  LOG_NAMESPACES : Option String := none
  APP_NAME : Option String := none
deriving DecidableEq

/-- The resolved constructor attributes after `normalizeArguments`. -/
structure Attrs where
  context : Option Ctx
  logLevel : Level
  logLimit : Nat
  logPatterns : Option String
  ns : String
deriving DecidableEq

/-- `DEFAULT_LOGGER_ATTRIBUTES` of `logger.js`:
`logLevel = LOG_LEVEL || error`, `logLimit = LOG_LIMIT || 7000`,
`logPatterns = LOG_NAMESPACES || undefined`, `namespace = ''`
(the source's `namespace` key is `ns` here, `namespace` being a Lean
keyword); there is no `context` key. -/
def DEFAULT_LOGGER_ATTRIBUTES (env : Env) : Attrs :=
  { context := none
    logLevel := env.LOG_LEVEL.getD Level.error
    logLimit := env.LOG_LIMIT.getD 7000
    logPatterns := env.LOG_NAMESPACES
    ns := "" }

/-- A constructor options object.  Each field is `none` when the key is
absent.  For `logPatterns` the present-with-`undefined` case matters
(`Object.assign` copies a present key even when its value is
`undefined`, overriding the environment default), so that field is
doubly optional: `some v` means the key is present with value `v`. -/
structure Options where
  context : Option Ctx := none
  logLevel : Option Level := none
  logLimit : Option Nat := none
  logPatterns : Option (Option String) := none
  ns : Option String := none
deriving DecidableEq

/-- `normalizeArguments(options, extraParameters)` of `logger.js` for the
options-object form: `undefined` options give the defaults, otherwise
`Object.assign({}, DEFAULT_LOGGER_ATTRIBUTES, options)`.  The deprecated
positional `extraParameters` form is out of the spec's scope and not
modelled. -/
def normalizeArguments (env : Env) (options : Option Options) : Attrs :=
  match options with
  | none => DEFAULT_LOGGER_ATTRIBUTES env
  | some o =>
    { context := o.context
      logLevel := o.logLevel.getD (DEFAULT_LOGGER_ATTRIBUTES env).logLevel
      logLimit := o.logLimit.getD (DEFAULT_LOGGER_ATTRIBUTES env).logLimit
      logPatterns :=
        match o.logPatterns with
        | none => (DEFAULT_LOGGER_ATTRIBUTES env).logPatterns
        | some v => v
      ns := o.ns.getD (DEFAULT_LOGGER_ATTRIBUTES env).ns }

/-- The `Logger` instance state assigned by the constructor (the source's
`namespace` field is `ns`; the `log` alias and the pretty-print `format`
function are modelled as operations below). -/
structure Logger where
  contextData : ContextData
  logLevel : Level
  logLimit : Nat
  logPatterns : Option String
  ns : String
  serializer : Serializer
deriving DecidableEq

/-- The `Logger` constructor: normalize the arguments, then assign the
fields, building `contextData` and the `Serializer` from the resolved
`context`, `APP_NAME`, namespace and `logLimit`. -/
def mkLogger (env : Env) (options : Option Options) : Logger :=
  let a := normalizeArguments env options
  { contextData := { context := a.context, name := env.APP_NAME }
    logLevel := a.logLevel
    logLimit := a.logLimit
    logPatterns := a.logPatterns
    ns := a.ns
    serializer :=
      { contextData := { context := a.context, name := env.APP_NAME }
        ns := a.ns
        logLimit := a.logLimit } }

/-- `shouldSuppressOutput(outputType)`: suppress unless both the level
filter and the namespace matcher answer `true`. -/
def Logger.shouldSuppressOutput (L : Logger) (outputType : Level) : Bool :=
  [ logLevelFilter L.logLevel outputType,
    isEnabled L.ns L.logPatterns ].any (fun response => response ≠ true)

/-- `output(message, additionalArguments, outputType = loggerLevels.log)`:
return immediately when suppressed (`none`: no event is serialized or
handed to the output collaborator), else serialize and hand the event
over (`some`). -/
def Logger.output (L : Logger) (now : Nat)
    (message additionalArguments : List Nat)
    (outputType : Level := Level.log) : Option Event :=
  if L.shouldSuppressOutput outputType then none
  else some (L.serializer.serialize now message additionalArguments outputType)

/-- `info(message, additionalArguments = {})`: `output` with no explicit
severity. -/
def Logger.info (L : Logger) (now : Nat)
    (message : List Nat) (additionalArguments : List Nat := []) : Option Event :=
  L.output now message additionalArguments

/-- The `log` alias bound in the constructor: `log: this.info`. -/
def Logger.log (L : Logger) (now : Nat)
    (message : List Nat) (additionalArguments : List Nat := []) : Option Event :=
  L.info now message additionalArguments

/-- `warn(message, additionalArguments = {})`. -/
def Logger.warn (L : Logger) (now : Nat)
    (message : List Nat) (additionalArguments : List Nat := []) : Option Event :=
  L.output now message additionalArguments Level.warn

/-- `error(message, additionalArguments = {})`. -/
def Logger.error (L : Logger) (now : Nat)
    (message : List Nat) (additionalArguments : List Nat := []) : Option Event :=
  L.output now message additionalArguments Level.error

/-- `debug(message, additionalArguments = {})`. -/
def Logger.debug (L : Logger) (now : Nat)
    (message : List Nat) (additionalArguments : List Nat := []) : Option Event :=
  L.output now message additionalArguments Level.debug

/-- `createChildLogger(namespace)`: prefix the new namespace with the
parent's (plus `:`) when the parent's is non-empty (truthy), and
construct a new `Logger` passing only `context`, `logPatterns` and the
concatenated namespace. -/
def Logger.createChildLogger (L : Logger) (env : Env) (suffix : String) : Logger :=
  let pre := if L.ns ≠ "" then L.ns ++ ":" else ""
  mkLogger env (some
    { context := L.contextData.context
      logPatterns := some L.logPatterns
      ns := some (pre ++ suffix) })

/-- `setSessionId(sessionId)`: reassign `contextData.context` to
`Object.assign({}, contextData.context, { sessionId })` (modelled as an
append, lookup being last-wins); every other field, the serializer
included, is untouched. -/
def Logger.setSessionId (L : Logger) (sessionId : String) : Logger :=
  { L with contextData :=
      { L.contextData with
        context := some ((L.contextData.context.getD []) ++ [("sessionId", sessionId)]) } }

/-- The state `current()` reads: either no domain is active, or a domain
is active and its `logger` property holds a bound logger or is
`undefined` (no binding ever happened). -/
inductive DomainState where
  | noActive : DomainState
  | active : Option Logger → DomainState
deriving DecidableEq

/-- `static current()`: a fresh default logger when no domain is active,
otherwise `domain.active.logger` — whatever that property holds. -/
def Logger.current (env : Env) : DomainState → Option Logger
  | DomainState.noActive => some (mkLogger env none)
  | DomainState.active bound => bound

/-! ## Cycle-safe stringification (`json-stringify-safe`, modelled from the spec)

JavaScript values are modelled as a heap of objects (association lists
of fields) addressed by references, so that cyclic object graphs are
representable.  The stringifier carries the list of references already
on the current path and replaces a revisited reference with the stable
`"[Circular]"` marker instead of recursing; `none` models a stringifier
run that aborts (the failure the spec's safety requirement rules out),
and fuel is consumed only when dereferencing an unvisited object. -/

/-- A JavaScript value: a string, a number, or a reference into the heap. -/
inductive JsVal where
  | vstr : String → JsVal
  | vnum : Int → JsVal
  | vref : Nat → JsVal
deriving DecidableEq

/-- A JavaScript object: its fields in order. -/
abbrev JsObj := List (String × JsVal)

/-- A heap of objects; `JsVal.vref i` points at entry `i`. -/
abbrev Heap := List JsObj

/-- Wrap a string in JSON quotes (escaping is not modelled). -/
def quoteStr (s : String) : String := "\"" ++ s ++ "\""

/-- Combine one rendered field with the fields after it, propagating
failure. -/
def combineField (s? : Option String) (k : String)
    (acc : Option (List String)) : Option (List String) :=
  match s?, acc with
  | some s, some rest => some ((quoteStr k ++ ":" ++ s) :: rest)
  | _, _ => none

/-- Render an object body from its fields. -/
def renderObj (parts : List String) : String :=
  "\x7b" ++ String.intercalate "," parts ++ "\x7d"

/-- Modelled from the spec: the safe stringifier.  A reference already
seen on the path becomes the `"[Circular]"` marker; a dangling reference
renders as `null`; dereferencing an unvisited object consumes one unit
of fuel, and exhausted fuel aborts the run (`none`). -/
def strV (h : Heap) : Nat → List Nat → JsVal → Option String
  | _, _, JsVal.vstr s => some (quoteStr s)
  | _, _, JsVal.vnum n => some (toString n)
  | fuel, seen, JsVal.vref i =>
    if i ∈ seen then some (quoteStr "[Circular]")
    else
      match h.get? i, fuel with
      | none, _ => some "null"
      | some _, 0 => none
      | some fields, fuel' + 1 =>
        Option.map renderObj
          (fields.foldr
            (fun kv acc => combineField (strV h fuel' (i :: seen) kv.2) kv.1 acc)
            (some []))

/-- Modelled from the spec: stringify a value against a heap, with fuel
for every object of the heap (each object can be dereferenced at most
once per path). -/
def stringifySafe (h : Heap) (v : JsVal) : Option String :=
  strV h h.length [] v

example :
    stringifySafe [[("self", JsVal.vref 0)]] (JsVal.vref 0) =
      some "\x7b\"self\":\"[Circular]\"\x7d" := by decide

example :
    stringifySafe [[("a", JsVal.vref 1)], [("b", JsVal.vstr "x")]] (JsVal.vref 0) =
      some "\x7b\"a\":\x7b\"b\":\"x\"\x7d\x7d" := by decide

/-- The heap entries not yet on the current path. -/
def unseen (h : Heap) (seen : List Nat) : Finset Nat :=
  (Finset.range h.length).filter (fun i => i ∉ seen)

theorem combineFold_isSome (g : JsVal → Option String) :
    ∀ fields : JsObj, (∀ kv ∈ fields, (g kv.2).isSome = true) →
      (fields.foldr (fun kv acc => combineField (g kv.2) kv.1 acc)
        (some [])).isSome = true := by
  intro fields
  induction fields with
  | nil => intro _; rfl
  | cons kv rest ih =>
    intro hall
    have h1 : (g kv.2).isSome = true := hall kv (List.mem_cons_self kv rest)
    have h2 := ih (fun x hx => hall x (List.mem_cons_of_mem kv hx))
    obtain ⟨s, hs⟩ := Option.isSome_iff_exists.mp h1
    obtain ⟨r, hr⟩ := Option.isSome_iff_exists.mp h2
    rw [List.foldr_cons, hs, hr]
    rfl

theorem unseen_cons_card_lt (h : Heap) (seen : List Nat) (i : Nat)
    (hlt : i < h.length) (hni : i ∉ seen) :
    (unseen h (i :: seen)).card < (unseen h seen).card := by
  have hsub : unseen h (i :: seen) ⊆ unseen h seen := by
    intro x hx
    simp only [unseen, Finset.mem_filter, Finset.mem_range, List.mem_cons] at hx ⊢
    exact ⟨hx.1, fun hxs => hx.2 (Or.inr hxs)⟩
  refine Finset.card_lt_card ((Finset.ssubset_iff_of_subset hsub).mpr ⟨i, ?_, ?_⟩)
  · simp only [unseen, Finset.mem_filter, Finset.mem_range]
    exact ⟨hlt, hni⟩
  · simp [unseen]

theorem strV_isSome (h : Heap) :
    ∀ (fuel : Nat) (seen : List Nat) (v : JsVal),
      (unseen h seen).card ≤ fuel → (strV h fuel seen v).isSome = true := by
  intro fuel
  induction fuel with
  | zero =>
    intro seen v hle
    cases v with
    | vstr s => rfl
    | vnum n => rfl
    | vref i =>
      cases hget : h.get? i with
      | none =>
        rw [strV.eq_3 h seen i 0 hget]
        by_cases hi : i ∈ seen
        · rw [if_pos hi]; rfl
        · rw [if_neg hi]; rfl
      | some fields =>
        rw [strV.eq_4 h seen i fields hget]
        by_cases hi : i ∈ seen
        · rw [if_pos hi]; rfl
        · exfalso
          have hlt : i < h.length := by
            by_contra hge
            rw [List.get?_eq_none.mpr (Nat.le_of_not_lt hge)] at hget
            exact Option.noConfusion hget
          have hmem : i ∈ unseen h seen := by
            simp only [unseen, Finset.mem_filter, Finset.mem_range]
            exact ⟨hlt, hi⟩
          have hpos : 0 < (unseen h seen).card := Finset.card_pos.mpr ⟨i, hmem⟩
          omega
  | succ fuel ih =>
    intro seen v hle
    cases v with
    | vstr s => rfl
    | vnum n => rfl
    | vref i =>
      cases hget : h.get? i with
      | none =>
        rw [strV.eq_3 h seen i (fuel + 1) hget]
        by_cases hi : i ∈ seen
        · rw [if_pos hi]; rfl
        · rw [if_neg hi]; rfl
      | some fields =>
        rw [strV.eq_5 h seen i fields fuel hget]
        by_cases hi : i ∈ seen
        · rw [if_pos hi]; rfl
        · rw [if_neg hi, Option.isSome_map']
          have hlt : i < h.length := by
            by_contra hge
            rw [List.get?_eq_none.mpr (Nat.le_of_not_lt hge)] at hget
            exact Option.noConfusion hget
          have hcard := unseen_cons_card_lt h seen i hlt hi
          have hle' : (unseen h (i :: seen)).card ≤ fuel := by omega
          exact combineFold_isSome (fun v => strV h fuel (i :: seen) v) fields
            (fun kv _ => ih (i :: seen) kv.2 hle')

/-! ## Derived facts about suppression and serialization -/

theorem shouldSuppress_spec (L : Logger) (t : Level) :
    L.shouldSuppressOutput t
      = !(logLevelFilter L.logLevel t && isEnabled L.ns L.logPatterns) := by
  cases h1 : logLevelFilter L.logLevel t <;>
    cases h2 : isEnabled L.ns L.logPatterns <;>
      simp [Logger.shouldSuppressOutput, h1, h2]

theorem output_isSome (L : Logger) (now : Nat) (m a : List Nat) (t : Level) :
    (L.output now m a t).isSome
      = (logLevelFilter L.logLevel t && isEnabled L.ns L.logPatterns) := by
  unfold Logger.output
  rw [shouldSuppress_spec]
  cases logLevelFilter L.logLevel t && isEnabled L.ns L.logPatterns <;> simp

theorem serialize_severity (s : Serializer) (now : Nat)
    (m a : List Nat) (t : Level) :
    (s.serialize now m a t).severity = t := by
  simp only [Serializer.serialize]
  split <;> rfl

theorem isEnabledChars_spec (ns p : List Char) :
    isEnabledChars ns p = true ↔
      ((inclusionTerms p = [] ∨ ∃ t ∈ inclusionTerms p, termMatches t ns = true)
        ∧ ∀ t ∈ exclusionTerms p, termMatches t ns = false) := by
  simp only [isEnabledChars, Bool.and_eq_true, Bool.or_eq_true, Bool.not_eq_true',
    List.any_eq_false, List.any_eq_true, List.isEmpty_iff, Bool.not_eq_true]

/-! ## The claims -/

/-- **C1.** For every logger, timestamp, message, extra fields and
severity, the emit methods `debug`, `info`, `warn` and `error` hand an
event to the output collaborator (`some`) iff the level filter allows
the severity and the namespace matcher enables the logger's namespace
under its pattern expression; when either one disallows, `output`
returns `none`: no event is serialized or handed on. -/
theorem C1_emit_iff_level_and_namespace_allow
    (L : Logger) (now : Nat) (m a : List Nat) :
    ((L.debug now m a).isSome
        = (logLevelFilter L.logLevel Level.debug && isEnabled L.ns L.logPatterns))
    ∧ ((L.info now m a).isSome
        = (logLevelFilter L.logLevel Level.log && isEnabled L.ns L.logPatterns))
    ∧ ((L.warn now m a).isSome
        = (logLevelFilter L.logLevel Level.warn && isEnabled L.ns L.logPatterns))
    ∧ ((L.error now m a).isSome
        = (logLevelFilter L.logLevel Level.error && isEnabled L.ns L.logPatterns))
    ∧ (∀ t : Level,
        ¬(logLevelFilter L.logLevel t = true ∧ isEnabled L.ns L.logPatterns = true) →
          L.output now m a t = none) := by
  refine ⟨output_isSome L now m a Level.debug, output_isSome L now m a Level.log,
    output_isSome L now m a Level.warn, output_isSome L now m a Level.error, ?_⟩
  intro t ht
  have hfalse : (logLevelFilter L.logLevel t && isEnabled L.ns L.logPatterns) = false := by
    cases h1 : logLevelFilter L.logLevel t <;>
      cases h2 : isEnabled L.ns L.logPatterns <;> simp_all
  unfold Logger.output
  rw [shouldSuppress_spec, hfalse]
  rfl

/-- **C2.** The namespace matcher enables a namespace iff (no inclusion
terms exist or the namespace matches at least one inclusion term) and it
matches no exclusion term; an absent or empty pattern expression enables
every namespace; and under `"api,-api:child"` the namespace `"api"` is
enabled while `"api:child"` and `"other"` are disabled. -/
theorem C2_namespace_matcher_semantics (ns : String) (pats : Option String) :
    (isEnabled ns pats = true ↔
      ∀ p, pats = some p →
        ((inclusionTerms p.data = [] ∨
            ∃ t ∈ inclusionTerms p.data, termMatches t ns.data = true)
          ∧ ∀ t ∈ exclusionTerms p.data, termMatches t ns.data = false))
    ∧ isEnabled ns none = true
    ∧ isEnabled ns (some "") = true
    ∧ isEnabled "api" (some "api,-api:child") = true
    ∧ isEnabled "api:child" (some "api,-api:child") = false
    ∧ isEnabled "other" (some "api,-api:child") = false := by
  refine ⟨?_, rfl, rfl, by decide, by decide, by decide⟩
  cases pats with
  | none => simp [isEnabled]
  | some p =>
    show isEnabledChars ns.data p.data = true ↔ _
    rw [isEnabledChars_spec]
    constructor
    · rintro h q hq
      cases hq
      exact h
    · intro h
      exact h p rfl

/-- **C3 counterexample.** The claim quantifies the threshold `t`
independently of `s2`: under threshold `error`, an event at `debug` is
suppressed, `log` ranks strictly above `debug`, and yet an event at
`log` is also suppressed by the same threshold. -/
theorem C3_counterexample :
    logLevelFilter Level.error Level.debug = false
    ∧ rank Level.debug < rank Level.log
    ∧ logLevelFilter Level.error Level.log = false := by decide

/-- **C3 (amended).** The level filter allows emission iff
`rank(severity) ≥ rank(threshold)`; and — as the spec states it, with
the threshold being `s2` itself — if an event at a lower-ranked `s1` is
suppressed under threshold `s2`, that threshold never suppresses an
event at `s2` or any higher-ranked severity. -/
theorem C3_level_filter_amended (t s : Level) :
    (logLevelFilter t s = true ↔ rank t ≤ rank s)
    ∧ (∀ s1 s2 s3 : Level, rank s1 < rank s2 →
        logLevelFilter s2 s1 = false →
          rank s2 ≤ rank s3 → logLevelFilter s2 s3 = true) := by
  constructor
  · simp [logLevelFilter]
  · intro s1 s2 s3 _ _ h3
    simp only [logLevelFilter, decide_eq_true_eq]
    exact h3

/-- **C4.** When the severity is `debug` and the serialized
`extraFields`/context payload exceeds `sizeLimit` bytes, the payload is
truncated on encoded byte length to at most `sizeLimit` plus the
truncation-marker length; the `message` and `timestamp` fields are
never truncated (the emitted message is byte-identical to the input);
for severities other than `debug` the payload is left untouched. -/
theorem C4_debug_payload_truncation (s : Serializer) (now : Nat)
    (message extraFields : List Nat) (severity : Level) :
    (s.logLimit < (encodeCtx s.contextData ++ extraFields).length →
      (s.serialize now message extraFields Level.debug).payload.length
        ≤ s.logLimit + truncationMarker.length)
    ∧ (s.serialize now message extraFields severity).message = message
    ∧ (s.serialize now message extraFields severity).timestamp = now
    ∧ (severity ≠ Level.debug →
        (s.serialize now message extraFields severity).payload
          = encodeCtx s.contextData ++ extraFields) := by
  refine ⟨?_, ?_, ?_, ?_⟩
  · intro hgt
    have hc : True ∧ s.logLimit < (encodeCtx s.contextData ++ extraFields).length :=
      ⟨trivial, hgt⟩
    simp only [Serializer.serialize]
    rw [if_pos hc]
    simp only [List.length_append, List.length_take]
    omega
  · simp only [Serializer.serialize]
    split <;> rfl
  · simp only [Serializer.serialize]
    split <;> rfl
  · intro hne
    simp only [Serializer.serialize]
    rw [if_neg (fun hc => hne hc.1)]

/-- **C5.** Serialization never fails, whatever the input — cyclic object
graphs included: on every heap and value the safe stringifier returns a
result, and a circular reference is replaced with the stable
`"[Circular]"` marker rather than causing failure (shown on the
self-referential one-object heap). -/
theorem C5_serialization_never_fails :
    (∀ (h : Heap) (v : JsVal), (stringifySafe h v).isSome = true)
    ∧ stringifySafe [[("self", JsVal.vref 0)]] (JsVal.vref 0)
        = some "\x7b\"self\":\"[Circular]\"\x7d" := by
  refine ⟨?_, by decide⟩
  intro h v
  have hcard : (unseen h []).card = h.length := by
    simp [unseen]
  exact strV_isSome h h.length [] v hcard.le

/-- **C6 counterexample.** A domain can be active with no logger ever
bound to it; there `current()` returns `domain.active.logger`, the empty
reference (`none`), not a `Logger` instance. -/
theorem C6_counterexample :
    Logger.current {} (DomainState.active none) = none := rfl

/-- **C6 (amended).** `current()` returns a freshly constructed
default-configuration logger when no domain is active, and the logger
bound to the active domain when one is bound; it returns a non-empty
reference in exactly the states where no domain is active or the active
domain has a logger bound — when a domain is active with no binding, the
result is the empty reference. -/
theorem C6_current_amended (env : Env) (st : DomainState) :
    Logger.current env DomainState.noActive = some (mkLogger env none)
    ∧ (∀ L : Logger, Logger.current env (DomainState.active (some L)) = some L)
    ∧ ((Logger.current env st).isSome = true ↔ st ≠ DomainState.active none) := by
  refine ⟨rfl, fun L => rfl, ?_⟩
  cases st with
  | noActive => simp [Logger.current]
  | active bound =>
    cases bound with
    | none => simp [Logger.current]
    | some L => simp [Logger.current]

/-- **C7.** `createChildLogger(s)` returns a logger whose namespace is
the parent's namespace plus `":"` plus `s` when the parent's namespace
is non-empty, and `s` otherwise; it inherits the parent's context and
pattern expression (so the recompiled matcher behaves identically), but
not the parent's threshold override; and two calls with the same suffix
yield loggers with identical namespace and identical matcher
behaviour. -/
theorem C7_createChildLogger (env : Env) (L : Logger) (s : String) :
    ((L.createChildLogger env s).ns
        = if L.ns = "" then s else L.ns ++ ":" ++ s)
    ∧ (L.createChildLogger env s).contextData.context = L.contextData.context
    ∧ (L.createChildLogger env s).logPatterns = L.logPatterns
    ∧ (∀ x : String, isEnabled x (L.createChildLogger env s).logPatterns
        = isEnabled x L.logPatterns)
    ∧ (L.createChildLogger env s).logLevel = (DEFAULT_LOGGER_ATTRIBUTES env).logLevel
    ∧ ((L.createChildLogger env s).ns = (L.createChildLogger env s).ns
        ∧ ∀ x : String, isEnabled x (L.createChildLogger env s).logPatterns
            = isEnabled x (L.createChildLogger env s).logPatterns) := by
  refine ⟨?_, ?_, ?_, ?_, ?_, rfl, fun x => rfl⟩
  · by_cases hns : L.ns = ""
    · simp [Logger.createChildLogger, mkLogger, normalizeArguments,
        DEFAULT_LOGGER_ATTRIBUTES, hns]
    · simp [Logger.createChildLogger, mkLogger, normalizeArguments,
        DEFAULT_LOGGER_ATTRIBUTES, hns]
  · rfl
  · rfl
  · intro x; rfl
  · rfl

/-- **C8.** `info` and the `log` alias are the same operation: both
invoke `output` without an explicit severity, so the default severity
(`log`) decides the level filter and is the emitted event's severity;
hence `info` and `log` are suppressed under exactly the same
thresholds and `info` never emits at a distinct severity. -/
theorem C8_info_is_log_alias (L : Logger) (now : Nat) (m a : List Nat) :
    L.log now m a = L.info now m a
    ∧ L.info now m a = L.output now m a Level.log
    ∧ ((L.info now m a).isSome
        = (logLevelFilter L.logLevel Level.log && isEnabled L.ns L.logPatterns))
    ∧ (∀ e : Event, L.info now m a = some e → e.severity = Level.log) := by
  refine ⟨rfl, rfl, output_isSome L now m a Level.log, ?_⟩
  intro e he
  unfold Logger.info Logger.output at he
  by_cases hsup : L.shouldSuppressOutput Level.log
  · rw [if_pos hsup] at he
    exact Option.noConfusion he
  · rw [if_neg hsup] at he
    have := serialize_severity L.serializer now m a Level.log
    rw [Option.some.injEq] at he
    rw [← he]
    exact this

/-- **C9.** `setSessionId(sid)` replaces `contextData.context` with a
merge that binds `sessionId` to `sid`, but leaves every other field —
the serializer with its construction-time context in particular —
unchanged, so emission after `setSessionId` produces exactly the events
the logger produced before. -/
theorem C9_setSessionId_frame (L : Logger) (sid : String) :
    (L.setSessionId sid).serializer = L.serializer
    ∧ (L.setSessionId sid).logLevel = L.logLevel
    ∧ (L.setSessionId sid).logLimit = L.logLimit
    ∧ (L.setSessionId sid).logPatterns = L.logPatterns
    ∧ (L.setSessionId sid).ns = L.ns
    ∧ (L.setSessionId sid).contextData.name = L.contextData.name
    ∧ ctxGet ((L.setSessionId sid).contextData.context.getD []) "sessionId" = some sid
    ∧ (∀ (now : Nat) (m a : List Nat) (t : Level),
        (L.setSessionId sid).output now m a t = L.output now m a t) := by
  refine ⟨rfl, rfl, rfl, rfl, rfl, rfl, ?_, fun now m a t => rfl⟩
  simp [Logger.setSessionId, ctxGet, List.reverse_append]

/-- **C10.** A child logger receives only `context`, `logPatterns` and
the concatenated namespace: its `logLevel` and `logLimit` are reset to
the environment-derived defaults — the `error` threshold and the
7000-byte limit when the environment variables are unset — regardless
of the parent's configuration. -/
theorem C10_child_resets_level_and_limit (env : Env) (L : Logger) (s : String) :
    ((L.createChildLogger env s).logLevel = env.LOG_LEVEL.getD Level.error)
    ∧ ((L.createChildLogger env s).logLimit = env.LOG_LIMIT.getD 7000)
    ∧ ((L.createChildLogger {} s).logLevel = Level.error)
    ∧ ((L.createChildLogger {} s).logLimit = 7000) := by
  exact ⟨rfl, rfl, rfl, rfl⟩

end Clio
